import Mathlib

/-!
Verification development for the plan-search-answer pipeline implemented in
`app/backend/services_sk/plan_search_executor_sk.py` (method
`PlanSearchExecutorSK.generate_response`).

The Python method is shallowly embedded as total Lean functions.  External
collaborators (the intent/plan LLM calls, the web, video and document search
plugins, and the final completion call) are modelled by an `Oracle` record
supplying the outcome of every external call; the embedding records the
sequence of yielded fragments, the sequence of external calls, and the final
`all_contexts` list.  Python strings are modelled by `String` (character
lists), `len` by `String.length`, slicing `s[:n]` by `strTake`, and string
truthiness by a nonempty test.  A Python local variable that may be read
before assignment is modelled by `Option`: reading `none` corresponds to the
`UnboundLocalError` the interpreter raises, which propagates to the nearest
enclosing `try`.
-/

namespace PlanSearch

/-! ### String helpers -/

/-- Python slicing `s[:n]` on a `str`: the first `n` characters. -/
def strTake (s : String) (n : Nat) : String := ⟨s.data.take n⟩

/-- Python truthiness of a `str`: nonempty. -/
def pyTruthy (s : String) : Bool := s.length != 0

@[simp] theorem strTake_data (s : String) (n : Nat) : (strTake s n).data = s.data.take n := rfl

@[simp] theorem length_strTake (s : String) (n : Nat) :
    (strTake s n).length = min n s.length := by
  show (s.data.take n).length = min n s.data.length
  exact List.length_take n s.data

theorem length_mk (l : List Char) : (String.mk l).length = l.length := rfl

theorem string_length_append (s t : String) : (s ++ t).length = s.length + t.length := by
  cases s with
  | mk a =>
    cases t with
    | mk b =>
      show (a ++ b).length = a.length + b.length
      exact List.length_append a b

/-! ### Constants of the document-retrieval stage (source lines 410-412) -/

def MAX_CONTEXT_LENGTH : Nat := 400000

def MAX_DOCUMENT_LENGTH : Nat := 10000

/-- The marker appended when a long `content` field is cut (source line 459). -/
def truncMarker : String := "... [truncated]"

theorem truncMarker_length : truncMarker.length = 15 := rfl

/-! ### Documents returned by the `ai_search` plugin

A field holding `none` models a JSON key that is absent; `some ""` models a
key present with a falsy value.  `doc.get(k)` is the field itself,
`doc.get(k, d)` is `Option.getD`. -/

structure Doc where
  id : Option String := none
  title : Option String := none
  url : Option String := none
  content : Option String := none
  summary : Option String := none
deriving Repr, DecidableEq

/-- Python `a or b` specialised to `a = doc.get(k)` with `b` a string:
the value of `a` when present and truthy, else `b` (source line 442). -/
def orElseStr (a : Option String) (b : String) : String :=
  match a with
  | some s => if pyTruthy s then s else b
  | none => b

/-- Identity used for deduplication (source line 442):
`doc.get('id') or doc.get('title') or doc.get('url', f"doc_{i}_{doc_idx}")`.
Note that the last operand is returned even when falsy, exactly as in Python. -/
def docIdentity (doc : Doc) (i docIdx : Nat) : String :=
  orElseStr doc.id (orElseStr doc.title
    (doc.url.getD ("doc_" ++ Nat.repr i ++ "_" ++ Nat.repr docIdx)))

/-- Summary fallback of the content extraction (source lines 464-469):
`doc['summary'][:MAX_DOCUMENT_LENGTH]` when the summary is present and truthy,
else no usable text. -/
def extractSummary (doc : Doc) : Option String :=
  match doc.summary with
  | some s => if pyTruthy s then some (strTake s MAX_DOCUMENT_LENGTH) else none
  | none => none

/-- Content extraction for one document (source lines 451-469): prefer a
truthy `content` field, truncating it to `MAX_DOCUMENT_LENGTH` characters
with `truncMarker` appended when it is cut; else fall back to the first
`MAX_DOCUMENT_LENGTH` characters of a truthy `summary`; else `none`
(the document is skipped). -/
def extractContent (doc : Doc) : Option String :=
  match doc.content with
  | some c =>
    if pyTruthy c then
      if c.length > MAX_DOCUMENT_LENGTH then
        some (strTake c MAX_DOCUMENT_LENGTH ++ truncMarker)
      else some c
    else extractSummary doc
  | none => extractSummary doc

/-! ### The document aggregation state (source lines 407-412)

The field `rejected` is a ghost observer: it records that the
length-ceiling rejection branch ran (the source logs
`Skipping document due to length limit` there, line 477).  It is written
exactly where that log statement executes and is read by no branch of the
embedded code, so it does not alter the modelled behaviour. -/

structure DocState where
  doc_contexts : List String := []
  seen : List String := []
  total : Nat := 0
  rejected : Bool := false
deriving Repr, DecidableEq

def initDocState : DocState := {}

/-- Inner document loop of one query (source lines 440-478), over
`documents[:2]` with `doc_idx` counted from 1.  A document whose identity was
already seen is skipped (`continue`); otherwise its identity is recorded and
its extracted text is admitted only when the running total stays at or below
`MAX_CONTEXT_LENGTH`; a document that would exceed the ceiling is discarded
and the loop over this query&apos;s documents stops (`break`). -/
def processDocs (qIdx docIdx : Nat) (docs : List Doc) (st : DocState) : DocState :=
  match docs with
  | [] => st
  | d :: rest =>
    let doc_id := docIdentity d qIdx docIdx
    if doc_id ∈ st.seen then
      processDocs qIdx (docIdx + 1) rest st
    else
      let st1 : DocState := { st with seen := doc_id :: st.seen }
      match extractContent d with
      | none => processDocs qIdx (docIdx + 1) rest st1
      | some t =>
        if st1.total + t.length ≤ MAX_CONTEXT_LENGTH then
          processDocs qIdx (docIdx + 1) rest
            { st1 with doc_contexts := st1.doc_contexts ++ [t],
                       total := st1.total + t.length }
        else { st1 with rejected := true }

/-- Outcome of one `ai_search.search_documents` call, as observed by the
pipeline after the `json.loads` step (source lines 431-435). -/
inductive DocSearchOutcome where
  /-- The invocation (or the JSON decoding of its value) raised. -/
  | raiseExc (msg : String)
  /-- A falsy result value: `No AI search result returned`. -/
  | empty
  /-- A decoded result with its `status` field and `documents` list. -/
  | ok (status : String) (documents : List Doc)
deriving Repr, DecidableEq

/-- Per-query state update of the document stage (source lines 435-480):
only a result with `status == 'success'` and a truthy `documents` list is
processed, and only its first two documents. -/
def docQueryStep (qIdx : Nat) (out : DocSearchOutcome) (st : DocState) : DocState :=
  match out with
  | .ok status docs =>
    if status == "success" && !docs.isEmpty then processDocs qIdx 1 (docs.take 2) st
    else st
  | _ => st

/-- State after the outer query loop of the document stage (source lines
415-489): queries are processed in order; an exception ends the stage at once;
after each query the running total is checked once more and the loop stops
when it has reached `MAX_CONTEXT_LENGTH`. -/
def docLoopState (i : Nat) (qs : List DocSearchOutcome) (st : DocState) : DocState :=
  match qs with
  | [] => st
  | out :: rest =>
    match out with
    | .raiseExc _ => st
    | _ =>
      let st1 := docQueryStep i out st
      if MAX_CONTEXT_LENGTH ≤ st1.total then st1
      else docLoopState (i + 1) rest st1

/-! ### Generic lemmas about the document stage -/

theorem pyTruthy_of_length_ne {s : String} (h : s.length ≠ 0) : pyTruthy s = true := by
  simpa [pyTruthy] using h

/-! Unfolding equations for one step of the inner document loop. -/

theorem processDocs_nil (qi di : Nat) (st : DocState) : processDocs qi di [] st = st := rfl

theorem processDocs_cons_dup {qi di : Nat} {d : Doc} {rest : List Doc} {st : DocState}
    (hmem : docIdentity d qi di ∈ st.seen) :
    processDocs qi di (d :: rest) st = processDocs qi (di + 1) rest st := by
  simp only [processDocs]
  rw [if_pos hmem]

theorem processDocs_cons_skip {qi di : Nat} {d : Doc} {rest : List Doc} {st : DocState}
    (hmem : docIdentity d qi di ∉ st.seen) (hE : extractContent d = none) :
    processDocs qi di (d :: rest) st =
      processDocs qi (di + 1) rest { st with seen := docIdentity d qi di :: st.seen } := by
  simp only [processDocs]
  rw [if_neg hmem, hE]

theorem processDocs_cons_keep {qi di : Nat} {d : Doc} {rest : List Doc} {st : DocState}
    {t : String} (hmem : docIdentity d qi di ∉ st.seen) (hE : extractContent d = some t)
    (hlen : st.total + t.length ≤ MAX_CONTEXT_LENGTH) :
    processDocs qi di (d :: rest) st =
      processDocs qi (di + 1) rest
        { st with doc_contexts := st.doc_contexts ++ [t],
                  seen := docIdentity d qi di :: st.seen,
                  total := st.total + t.length } := by
  simp only [processDocs]
  rw [if_neg hmem, hE]
  dsimp only
  rw [if_pos hlen]

theorem processDocs_cons_reject {qi di : Nat} {d : Doc} {rest : List Doc} {st : DocState}
    {t : String} (hmem : docIdentity d qi di ∉ st.seen) (hE : extractContent d = some t)
    (hlen : ¬ st.total + t.length ≤ MAX_CONTEXT_LENGTH) :
    processDocs qi di (d :: rest) st =
      { st with seen := docIdentity d qi di :: st.seen, rejected := true } := by
  simp only [processDocs]
  rw [if_neg hmem, hE]
  dsimp only
  rw [if_neg hlen]

/-- The seen set only grows along the inner document loop. -/
theorem mem_seen_processDocs (docs : List Doc) :
    ∀ (qi di : Nat) (st : DocState) (x : String),
      x ∈ st.seen → x ∈ (processDocs qi di docs st).seen := by
  induction docs with
  | nil => intro qi di st x hx; simpa [processDocs_nil] using hx
  | cons d rest ih =>
    intro qi di st x hx
    by_cases hmem : docIdentity d qi di ∈ st.seen
    · rw [processDocs_cons_dup hmem]; exact ih qi (di + 1) st x hx
    · cases hE : extractContent d with
      | none =>
        rw [processDocs_cons_skip hmem hE]
        exact ih qi (di + 1) _ x (List.mem_cons_of_mem _ hx)
      | some t =>
        by_cases hlen : st.total + t.length ≤ MAX_CONTEXT_LENGTH
        · rw [processDocs_cons_keep hmem hE hlen]
          exact ih qi (di + 1) _ x (List.mem_cons_of_mem _ hx)
        · rw [processDocs_cons_reject hmem hE hlen]
          exact List.mem_cons_of_mem _ hx

/-! ### Concrete documents used to exercise the stage.

`xid n` is a string of `n + 1` copies of `x`; distinct indices give distinct
identities, established through lengths so that no kernel evaluation of long
strings is ever needed. -/

def xid (n : Nat) : String := ⟨List.replicate (n + 1) 'x'⟩

theorem xid_length (n : Nat) : (xid n).length = n + 1 := by
  show (List.replicate (n + 1) 'x').length = n + 1
  exact List.length_replicate (n + 1) 'x'

theorem xid_inj {a b : Nat} (h : xid a = xid b) : a = b := by
  have := congrArg String.length h
  rw [xid_length, xid_length] at this
  omega

theorem pyTruthy_xid (n : Nat) : pyTruthy (xid n) = true :=
  pyTruthy_of_length_ne (by rw [xid_length]; exact Nat.succ_ne_zero n)

/-- A content string of 10001 characters, one over the per-document cap. -/
def bigContent : String := ⟨List.replicate 10001 'a'⟩

theorem bigContent_length : bigContent.length = 10001 := by
  show (List.replicate 10001 'a').length = 10001
  exact List.length_replicate 10001 'a'

/-- What the budgeter admits for `bigContent`: the first 10000 characters
plus the truncation marker. -/
def bigTrunc : String := strTake bigContent MAX_DOCUMENT_LENGTH ++ truncMarker

theorem bigTrunc_length : bigTrunc.length = 10015 := by
  rw [bigTrunc, string_length_append, length_strTake, bigContent_length, truncMarker_length]
  decide

def bigDoc (n : Nat) : Doc := { id := some (xid n), content := some bigContent }

theorem docIdentity_bigDoc (n i j : Nat) : docIdentity (bigDoc n) i j = xid n := by
  show orElseStr (some (xid n)) _ = xid n
  rw [orElseStr, if_pos (pyTruthy_xid n)]

theorem extractContent_bigDoc (n : Nat) : extractContent (bigDoc n) = some bigTrunc := by
  show (if pyTruthy bigContent then
          if bigContent.length > MAX_DOCUMENT_LENGTH then
            some (strTake bigContent MAX_DOCUMENT_LENGTH ++ truncMarker)
          else some bigContent
        else extractSummary (bigDoc n)) = some bigTrunc
  rw [if_pos (pyTruthy_of_length_ne (by rw [bigContent_length]; omega))]
  rw [if_pos (by rw [bigContent_length]; decide)]
  rfl

/-- A small document admitted after the over-cap rejection. -/
def smallDocC1 : Doc := { id := some (xid 100), content := some "tiny" }

theorem tiny_length : ("tiny" : String).length = 4 := rfl

theorem docIdentity_smallDocC1 (i j : Nat) : docIdentity smallDocC1 i j = xid 100 := by
  show orElseStr (some (xid 100)) _ = xid 100
  rw [orElseStr, if_pos (pyTruthy_xid 100)]

theorem extractContent_smallDocC1 : extractContent smallDocC1 = some "tiny" := by
  show (if pyTruthy "tiny" then
          if ("tiny" : String).length > MAX_DOCUMENT_LENGTH then
            some (strTake "tiny" MAX_DOCUMENT_LENGTH ++ truncMarker)
          else some "tiny"
        else extractSummary smallDocC1) = some "tiny"
  rw [if_pos (pyTruthy_of_length_ne (by rw [tiny_length]; omega))]
  rw [if_neg (by rw [tiny_length]; decide)]

/-! ### Step lemmas for a query returning two over-cap documents -/

theorem processDocs_two_big (a b : Nat) {i : Nat} {st : DocState}
    (ha : xid a ∉ st.seen) (hb : xid b ∉ st.seen) (hab : xid b ≠ xid a)
    (h2 : st.total + 10015 + 10015 ≤ MAX_CONTEXT_LENGTH) :
    processDocs i 1 [bigDoc a, bigDoc b] st =
      { doc_contexts := st.doc_contexts ++ [bigTrunc, bigTrunc],
        seen := xid b :: xid a :: st.seen,
        total := st.total + 10015 + 10015,
        rejected := st.rejected } := by
  have h1 : st.total + 10015 ≤ MAX_CONTEXT_LENGTH := by omega
  have hb' : xid b ∉ xid a :: st.seen := by
    intro hmem
    rcases List.mem_cons.mp hmem with h | h
    · exact hab h
    · exact hb h
  have e1 := @processDocs_cons_keep i 1 (bigDoc a) [bigDoc b] st bigTrunc
      (by rw [docIdentity_bigDoc]; exact ha) (extractContent_bigDoc a)
      (by rw [bigTrunc_length]; exact h1)
  rw [docIdentity_bigDoc, bigTrunc_length] at e1
  have e2 := @processDocs_cons_keep i 2 (bigDoc b) ([] : List Doc)
      { st with doc_contexts := st.doc_contexts ++ [bigTrunc],
                seen := xid a :: st.seen, total := st.total + 10015 }
      bigTrunc
      (by rw [docIdentity_bigDoc]; exact hb') (extractContent_bigDoc b)
      (by dsimp only; rw [bigTrunc_length]; omega)
  rw [docIdentity_bigDoc, bigTrunc_length, processDocs_nil] at e2
  rw [e1, e2]
  dsimp only
  rw [List.append_assoc]
  rfl

theorem processDocs_big_reject (a b : Nat) {i : Nat} {st : DocState}
    (ha : xid a ∉ st.seen) (hb : xid b ∉ st.seen) (hab : xid b ≠ xid a)
    (h1 : st.total + 10015 ≤ MAX_CONTEXT_LENGTH)
    (h2 : MAX_CONTEXT_LENGTH < st.total + 10015 + 10015) :
    processDocs i 1 [bigDoc a, bigDoc b] st =
      { doc_contexts := st.doc_contexts ++ [bigTrunc],
        seen := xid b :: xid a :: st.seen,
        total := st.total + 10015,
        rejected := true } := by
  have hb' : xid b ∉ xid a :: st.seen := by
    intro hmem
    rcases List.mem_cons.mp hmem with h | h
    · exact hab h
    · exact hb h
  have e1 := @processDocs_cons_keep i 1 (bigDoc a) [bigDoc b] st bigTrunc
      (by rw [docIdentity_bigDoc]; exact ha) (extractContent_bigDoc a)
      (by rw [bigTrunc_length]; exact h1)
  rw [docIdentity_bigDoc, bigTrunc_length] at e1
  have e2 := @processDocs_cons_reject i 2 (bigDoc b) ([] : List Doc)
      { st with doc_contexts := st.doc_contexts ++ [bigTrunc],
                seen := xid a :: st.seen, total := st.total + 10015 }
      bigTrunc
      (by rw [docIdentity_bigDoc]; exact hb') (extractContent_bigDoc b)
      (by dsimp only; rw [bigTrunc_length]; omega)
  rw [docIdentity_bigDoc] at e2
  rw [e1, e2]

theorem processDocs_small {i : Nat} {st : DocState}
    (h : xid 100 ∉ st.seen) (hlen : st.total + 4 ≤ MAX_CONTEXT_LENGTH) :
    processDocs i 1 [smallDocC1] st =
      { doc_contexts := st.doc_contexts ++ ["tiny"],
        seen := xid 100 :: st.seen,
        total := st.total + 4,
        rejected := st.rejected } := by
  have e1 := @processDocs_cons_keep i 1 smallDocC1 ([] : List Doc) st "tiny"
      (by rw [docIdentity_smallDocC1]; exact h) extractContent_smallDocC1
      (by rw [tiny_length]; exact hlen)
  rw [docIdentity_smallDocC1, tiny_length, processDocs_nil] at e1
  exact e1

/-! ### Unfolding equations for the outer query loop -/

theorem docLoopState_nil (i : Nat) (st : DocState) : docLoopState i [] st = st := rfl

theorem docLoopState_cons_raise (i : Nat) (e : String) (rest : List DocSearchOutcome)
    (st : DocState) : docLoopState i (.raiseExc e :: rest) st = st := rfl

theorem docLoopState_cons (i : Nat) (out : DocSearchOutcome) (rest : List DocSearchOutcome)
    (st : DocState) (h : ∀ e, out ≠ DocSearchOutcome.raiseExc e) :
    docLoopState i (out :: rest) st =
      if MAX_CONTEXT_LENGTH ≤ (docQueryStep i out st).total then docQueryStep i out st
      else docLoopState (i + 1) rest (docQueryStep i out st) := by
  cases out with
  | raiseExc e => exact absurd rfl (h e)
  | empty => rfl
  | ok status docs => rfl

theorem docQueryStep_ok_two (i : Nat) (d1 d2 : Doc) (st : DocState) :
    docQueryStep i (.ok "success" [d1, d2]) st = processDocs i 1 [d1, d2] st := rfl

theorem docQueryStep_ok_one (i : Nat) (d : Doc) (st : DocState) :
    docQueryStep i (.ok "success" [d]) st = processDocs i 1 [d] st := rfl

/-! ### A run that fills the budget: 20 queries of two over-cap documents.

Each admitted document contributes 10015 characters, so documents 1..39 are
admitted (total 390585), document 40 is rejected because 390585 + 10015
exceeds 400000, and the outer loop then continues because 390585 is still
below the ceiling. -/

def bigSeen : Nat → List String
  | 0 => []
  | n + 1 => xid n :: bigSeen n

theorem mem_bigSeen {m n : Nat} : xid m ∈ bigSeen n ↔ m < n := by
  induction n with
  | zero => simp [bigSeen]
  | succ n ih =>
    simp only [bigSeen, List.mem_cons, ih]
    constructor
    · rintro (h | h)
      · have := xid_inj h; omega
      · omega
    · intro h
      by_cases hm : m = n
      · exact Or.inl (by rw [hm])
      · exact Or.inr (by omega)

def bigSt (m : Nat) : DocState :=
  { doc_contexts := List.replicate m bigTrunc, seen := bigSeen m,
    total := m * 10015, rejected := false }

theorem bigSt_zero : bigSt 0 = initDocState := rfl

def bigQuery (m : Nat) : DocSearchOutcome :=
  .ok "success" [bigDoc (2 * m), bigDoc (2 * m + 1)]

def bigQsFrom (j k : Nat) : List DocSearchOutcome := (List.range' j k).map bigQuery

theorem bigQsFrom_zero (j : Nat) : bigQsFrom j 0 = [] := rfl

theorem bigQsFrom_succ (j k : Nat) :
    bigQsFrom j (k + 1) = bigQuery j :: bigQsFrom (j + 1) k := rfl

theorem bigStep (j : Nat) (hj : 2 * j * 10015 + 10015 + 10015 ≤ MAX_CONTEXT_LENGTH) :
    docQueryStep j (bigQuery j) (bigSt (2 * j)) = bigSt (2 * j + 2) := by
  rw [bigQuery, docQueryStep_ok_two]
  simp only [bigSt]
  rw [processDocs_two_big (2 * j) (2 * j + 1)
    (by rw [mem_bigSeen]; omega) (by rw [mem_bigSeen]; omega)
    (by intro h; have := xid_inj h; omega) (by exact hj)]
  have hseen : bigSeen (2 * j + 2) = xid (2 * j + 1) :: xid (2 * j) :: bigSeen (2 * j) := rfl
  have ht : (2 * j + 2) * 10015 = 2 * j * 10015 + 10015 + 10015 := by omega
  rw [hseen, ht, List.replicate_add]
  rfl

theorem run_bigQueries : ∀ (k j : Nat) (rest : List DocSearchOutcome),
    2 * (j + k) * 10015 + 10015 ≤ MAX_CONTEXT_LENGTH →
    docLoopState j (bigQsFrom j k ++ rest) (bigSt (2 * j))
      = docLoopState (j + k) rest (bigSt (2 * (j + k))) := by
  intro k
  induction k with
  | zero => intro j rest h; rfl
  | succ k ih =>
    intro j rest h
    have hMAX : MAX_CONTEXT_LENGTH = 400000 := rfl
    rw [bigQsFrom_succ, List.cons_append]
    rw [docLoopState_cons j (bigQuery j) _ _ (fun e he => DocSearchOutcome.noConfusion he)]
    rw [bigStep j (by rw [hMAX] at h ⊢; omega)]
    rw [if_neg (by
      simp only [bigSt]
      rw [hMAX] at h ⊢
      omega)]
    have h2 : 2 * j + 2 = 2 * (j + 1) := by omega
    rw [h2]
    rw [ih (j + 1) rest (by rw [hMAX] at h ⊢; omega)]
    have h3 : j + 1 + k = j + (k + 1) := by omega
    rw [h3]

/-- The state after the 20th query (documents 39 and 40): document 40 is
rejected, the running total stays at 390585 and the ghost flag is set. -/
theorem bigStep_reject :
    docQueryStep 19 (bigQuery 19) (bigSt 38) =
      { doc_contexts := List.replicate 38 bigTrunc ++ [bigTrunc],
        seen := xid 39 :: xid 38 :: bigSeen 38,
        total := 380570 + 10015,
        rejected := true } := by
  rw [show bigQuery 19 = .ok "success" [bigDoc 38, bigDoc 39] from rfl]
  rw [docQueryStep_ok_two]
  simp only [bigSt]
  rw [processDocs_big_reject 38 39
    (fun hm => absurd (mem_bigSeen.mp hm) (by omega))
    (fun hm => absurd (mem_bigSeen.mp hm) (by omega))
    (fun h => absurd (xid_inj h) (by omega))
    (by decide) (by decide)]

/-! ### Claim C1 and its refutation -/

/-- Claim C1 as stated: within one request (a run of the document stage from
the initial state over the planned queries), once a document has been
discarded because admitting it would exceed the 400000-character ceiling
(ghost flag `rejected`), no further documents are admitted for the remainder
of the request, including all subsequent planned queries — so processing any
further queries `l2` leaves the admitted aggregate unchanged. -/
def claimC1 : Prop :=
  ∀ (l1 l2 : List DocSearchOutcome),
    (docLoopState 0 l1 initDocState).rejected = true →
    (docLoopState 0 (l1 ++ l2) initDocState).doc_contexts
      = (docLoopState 0 l1 initDocState).doc_contexts

def exC1l1 : List DocSearchOutcome := bigQsFrom 0 19 ++ [bigQuery 19]

def exC1l2 : List DocSearchOutcome := [DocSearchOutcome.ok "success" [smallDocC1]]

def exC1rejSt : DocState :=
  { doc_contexts := List.replicate 38 bigTrunc ++ [bigTrunc],
    seen := xid 39 :: xid 38 :: bigSeen 38,
    total := 380570 + 10015,
    rejected := true }

theorem exC1_prefix_eval : docLoopState 0 exC1l1 initDocState = exC1rejSt := by
  have h1 := run_bigQueries 19 0 [bigQuery 19] (by decide)
  have h2 : docLoopState 19 [bigQuery 19] (bigSt 38) = exC1rejSt := by
    rw [docLoopState_cons 19 (bigQuery 19) [] (bigSt 38)
      (fun e he => DocSearchOutcome.noConfusion he)]
    rw [bigStep_reject]
    rw [if_neg (by decide)]
    rfl
  exact h1.trans h2

theorem exC1_full_eval :
    docLoopState 0 (exC1l1 ++ exC1l2) initDocState =
      { doc_contexts := (List.replicate 38 bigTrunc ++ [bigTrunc]) ++ ["tiny"],
        seen := xid 100 :: xid 39 :: xid 38 :: bigSeen 38,
        total := 380570 + 10015 + 4,
        rejected := true } := by
  have h1 := run_bigQueries 19 0 ([bigQuery 19] ++ exC1l2) (by decide)
  rw [show exC1l1 ++ exC1l2 = bigQsFrom 0 19 ++ ([bigQuery 19] ++ exC1l2) from
    List.append_assoc _ _ _]
  refine h1.trans ?_
  show docLoopState 19 (bigQuery 19 :: exC1l2) (bigSt 38) = _
  rw [docLoopState_cons 19 (bigQuery 19) exC1l2 (bigSt 38)
    (fun e he => DocSearchOutcome.noConfusion he)]
  rw [bigStep_reject]
  rw [if_neg (by decide)]
  rw [show exC1l2 = [DocSearchOutcome.ok "success" [smallDocC1]] from rfl]
  rw [docLoopState_cons 20 (DocSearchOutcome.ok "success" [smallDocC1]) []
    _ (fun e he => DocSearchOutcome.noConfusion he)]
  rw [docQueryStep_ok_one]
  rw [processDocs_small
    (by
      intro hm
      rcases List.mem_cons.mp hm with h | h
      · exact absurd (xid_inj h) (by omega)
      rcases List.mem_cons.mp h with h | h
      · exact absurd (xid_inj h) (by omega)
      · exact absurd (mem_bigSeen.mp h) (by omega))
    (by decide)]
  rw [if_neg (by decide)]
  rfl

/-- Counterexample to claim C1: after document 40 of 20 planned queries is
discarded for exceeding the ceiling (total 390585 + 10015 > 400000), a 21st
query still admits a further document, because the outer loop only stops once
the running total itself has reached 400000. -/
theorem C1_counterexample : ¬ claimC1 := by
  intro h
  have hcl := h exC1l1 exC1l2 (by rw [exC1_prefix_eval]; rfl)
  rw [exC1_prefix_eval, exC1_full_eval] at hcl
  have hlen := congrArg List.length hcl
  simp only [exC1rejSt, List.length_append, List.length_replicate,
    List.length_cons, List.length_nil] at hlen
  omega

/-- Amended claim C1: a document whose admission would exceed the 400000
ceiling is discarded together with the rest of the current query&apos;s result
list; subsequent planned queries are skipped only once the running aggregate
total has itself reached 400000 (checked once per outer loop iteration). -/
theorem C1_amended :
    (∀ (qi di : Nat) (d : Doc) (rest : List Doc) (st : DocState) (t : String),
        docIdentity d qi di ∉ st.seen → extractContent d = some t →
        MAX_CONTEXT_LENGTH < st.total + t.length →
        processDocs qi di (d :: rest) st =
          { st with seen := docIdentity d qi di :: st.seen, rejected := true })
    ∧ (∀ (i : Nat) (out : DocSearchOutcome) (rest : List DocSearchOutcome) (st : DocState),
        (∀ e, out ≠ DocSearchOutcome.raiseExc e) →
        MAX_CONTEXT_LENGTH ≤ (docQueryStep i out st).total →
        docLoopState i (out :: rest) st = docQueryStep i out st) := by
  constructor
  · intro qi di d rest st t hmem hE hlen
    exact processDocs_cons_reject hmem hE (by omega)
  · intro i out rest st hout htot
    rw [docLoopState_cons i out rest st hout, if_pos htot]

theorem C1_amended_witness :
    processDocs 0 1 [bigDoc 0] { total := 400000 } =
      { seen := [xid 0], total := 400000, rejected := true }
    ∧ docLoopState 5 [DocSearchOutcome.empty, DocSearchOutcome.empty] { total := 400000 }
        = { total := 400000 } := by
  constructor
  · have h := C1_amended.1 0 1 (bigDoc 0) [] { total := 400000 } bigTrunc
      (by rw [docIdentity_bigDoc]; exact List.not_mem_nil _)
      (extractContent_bigDoc 0)
      (by rw [bigTrunc_length]; decide)
    rw [docIdentity_bigDoc] at h
    exact h
  · exact C1_amended.2 5 .empty [.empty] { total := 400000 }
      (fun e he => DocSearchOutcome.noConfusion he) (by decide)

/-! ### Claim C3: deduplication by document identity -/

/-- Claim C3: a document whose identity is already in the seen set is
excluded — the state (aggregate, seen set and running total) is exactly the
state produced by the remaining documents alone; and conversely, processing
an unseen document records its identity, so a later document with the same
identity is excluded. -/
theorem C3_dedup :
    (∀ (qi di : Nat) (d : Doc) (rest : List Doc) (st : DocState),
        docIdentity d qi di ∈ st.seen →
        processDocs qi di (d :: rest) st = processDocs qi (di + 1) rest st)
    ∧ (∀ (qi di : Nat) (d : Doc) (rest : List Doc) (st : DocState),
        docIdentity d qi di ∉ st.seen →
        docIdentity d qi di ∈ (processDocs qi di (d :: rest) st).seen) := by
  constructor
  · intro qi di d rest st hmem
    exact processDocs_cons_dup hmem
  · intro qi di d rest st hmem
    cases hE : extractContent d with
    | none =>
      rw [processDocs_cons_skip hmem hE]
      exact mem_seen_processDocs rest qi (di + 1) _ _ (List.mem_cons_self _ _)
    | some t =>
      by_cases hlen : st.total + t.length ≤ MAX_CONTEXT_LENGTH
      · rw [processDocs_cons_keep hmem hE hlen]
        exact mem_seen_processDocs rest qi (di + 1) _ _ (List.mem_cons_self _ _)
      · rw [processDocs_cons_reject hmem hE hlen]
        exact List.mem_cons_self _ _

/-- A document whose identity collides with an already-seen one. -/
def dupDoc : Doc := { id := some "a", content := some "body" }

theorem C3_dedup_witness :
    processDocs 0 1 [dupDoc] { seen := ["a"] } = processDocs 0 2 [] { seen := ["a"] }
    ∧ "a" ∈ (processDocs 3 1 [dupDoc] initDocState).seen := by
  constructor
  · exact C3_dedup.1 0 1 dupDoc [] { seen := ["a"] } (by decide)
  · exact C3_dedup.2 3 1 dupDoc [] initDocState (by decide)

/-! ### Claim C4: per-document truncation -/

/-- The text field the extraction draws from when it falls back to the
summary: a present and truthy `summary`. -/
def sourceSummaryText (doc : Doc) : Option String :=
  match doc.summary with
  | some s => if pyTruthy s then some s else none
  | none => none

/-- The text field the extraction draws from: a present and truthy
`content`, else a present and truthy `summary`. -/
def sourceText (doc : Doc) : Option String :=
  match doc.content with
  | some c => if pyTruthy c then some c else sourceSummaryText doc
  | none => sourceSummaryText doc

/-- Claim C4 as stated: every admitted document text is truncated to at most
`MAX_DOCUMENT_LENGTH` characters (plus the marker), and whenever the source
text was cut the truncation marker is appended. -/
def claimC4 : Prop :=
  ∀ (d : Doc) (s t : String), sourceText d = some s → extractContent d = some t →
    t.length ≤ MAX_DOCUMENT_LENGTH + truncMarker.length ∧
    (MAX_DOCUMENT_LENGTH < s.length → t = strTake s MAX_DOCUMENT_LENGTH ++ truncMarker)

/-! Unfolding equations for the extraction. -/

theorem extractContent_eq_content {d : Doc} {c : String} (hc : d.content = some c)
    (htr : pyTruthy c = true) :
    extractContent d =
      (if c.length > MAX_DOCUMENT_LENGTH then
        some (strTake c MAX_DOCUMENT_LENGTH ++ truncMarker)
      else some c) := by
  unfold extractContent
  rw [hc]
  dsimp only
  rw [if_pos htr]

theorem extractContent_eq_summary {d : Doc}
    (h : ∀ c, d.content = some c → pyTruthy c = false) :
    extractContent d = extractSummary d := by
  unfold extractContent
  cases hc : d.content with
  | none => rfl
  | some c =>
    dsimp only
    rw [if_neg (by simp [h c hc])]

theorem extractSummary_some {d : Doc} {t : String} (hE : extractSummary d = some t) :
    ∃ s, d.summary = some s ∧ pyTruthy s = true ∧ t = strTake s MAX_DOCUMENT_LENGTH := by
  unfold extractSummary at hE
  cases hs : d.summary with
  | none => rw [hs] at hE; exact Option.noConfusion hE
  | some s =>
    rw [hs] at hE
    dsimp only at hE
    by_cases hts : pyTruthy s = true
    · rw [if_pos hts] at hE
      exact ⟨s, rfl, hts, (Option.some.inj hE).symm⟩
    · rw [if_neg hts] at hE
      exact Option.noConfusion hE

/-- Characterisation of a successful extraction: either it came from a
truthy content field (truncated with marker when over the cap), or from a
truthy summary field (cut with no marker), the latter only when no truthy
content is present. -/
theorem extractContent_cases (d : Doc) (t : String) (hE : extractContent d = some t) :
    (∃ c, d.content = some c ∧ pyTruthy c = true ∧
        ((MAX_DOCUMENT_LENGTH < c.length ∧ t = strTake c MAX_DOCUMENT_LENGTH ++ truncMarker)
          ∨ (c.length ≤ MAX_DOCUMENT_LENGTH ∧ t = c)))
    ∨ (∃ s, d.summary = some s ∧ pyTruthy s = true ∧ t = strTake s MAX_DOCUMENT_LENGTH
        ∧ (∀ c, d.content = some c → pyTruthy c = false)) := by
  by_cases hall : ∀ c, d.content = some c → pyTruthy c = false
  · right
    rw [extractContent_eq_summary hall] at hE
    obtain ⟨s, hs, hts, ht⟩ := extractSummary_some hE
    exact ⟨s, hs, hts, ht, hall⟩
  · left
    push_neg at hall
    obtain ⟨c, hc, htr⟩ := hall
    have htr' : pyTruthy c = true := by revert htr; cases pyTruthy c <;> simp
    refine ⟨c, hc, htr', ?_⟩
    rw [extractContent_eq_content hc htr'] at hE
    by_cases hlen : c.length > MAX_DOCUMENT_LENGTH
    · rw [if_pos hlen] at hE
      exact Or.inl ⟨hlen, (Option.some.inj hE).symm⟩
    · rw [if_neg hlen] at hE
      exact Or.inr ⟨by omega, (Option.some.inj hE).symm⟩

/-- Amended claim C4: every admitted text is at most 10000 characters plus
the marker; a text admitted from the content field is the first 10000
characters with the marker appended whenever the content was cut; a text
admitted from the summary field is the first 10000 characters of the summary
with no marker appended. -/
theorem C4_amended :
    ∀ (d : Doc) (t : String), extractContent d = some t →
      t.length ≤ MAX_DOCUMENT_LENGTH + truncMarker.length ∧
      (∀ c, d.content = some c → MAX_DOCUMENT_LENGTH < c.length →
          t = strTake c MAX_DOCUMENT_LENGTH ++ truncMarker) ∧
      (∀ s, (∀ c, d.content = some c → pyTruthy c = false) → d.summary = some s →
          t = strTake s MAX_DOCUMENT_LENGTH) := by
  intro d t hE
  rcases extractContent_cases d t hE with ⟨c, hc, htr, hcase⟩ | ⟨s, hs, hts, ht, hall⟩
  · refine ⟨?_, ?_, ?_⟩
    · rcases hcase with ⟨hlen, ht⟩ | ⟨hlen, ht⟩
      · rw [ht, string_length_append, length_strTake]
        omega
      · rw [ht]; omega
    · intro c' hc' hlen'
      rw [hc] at hc'
      have hcc : c = c' := Option.some.inj hc'
      subst hcc
      rcases hcase with ⟨hlen, ht⟩ | ⟨hlen, ht⟩
      · exact ht
      · omega
    · intro s hfalse hs
      exact absurd (hfalse c hc) (by rw [htr]; simp)
  · refine ⟨?_, ?_, ?_⟩
    · rw [ht, length_strTake]
      omega
    · intro c' hc' hlen'
      have := hall c' hc'
      have h0 : c'.length ≠ 0 := by omega
      rw [pyTruthy_of_length_ne h0] at this
      exact Bool.noConfusion this
    · intro s' hfalse hs'
      rw [hs] at hs'
      rw [← Option.some.inj hs']
      exact ht

/-- A 12000-character summary, used to refute the marker clause. -/
def bigSummary : String := ⟨List.replicate 12000 'a'⟩

theorem bigSummary_length : bigSummary.length = 12000 := by
  show (List.replicate 12000 'a').length = 12000
  exact List.length_replicate 12000 'a'

def exC4doc : Doc := { summary := some bigSummary }

theorem extractContent_exC4doc :
    extractContent exC4doc = some (strTake bigSummary MAX_DOCUMENT_LENGTH) := by
  show extractSummary exC4doc = _
  show (if pyTruthy bigSummary then some (strTake bigSummary MAX_DOCUMENT_LENGTH)
        else none) = _
  rw [if_pos (pyTruthy_of_length_ne (by rw [bigSummary_length]; omega))]

theorem sourceText_exC4doc : sourceText exC4doc = some bigSummary := by
  show sourceSummaryText exC4doc = _
  show (if pyTruthy bigSummary then some bigSummary else none) = _
  rw [if_pos (pyTruthy_of_length_ne (by rw [bigSummary_length]; omega))]

/-- Counterexample to claim C4 as stated: a document with no content field
and a 12000-character summary is cut to 10000 characters with no truncation
marker appended, contradicting the marker clause. -/
theorem C4_counterexample : ¬ claimC4 := by
  intro h
  have h2 := (h exC4doc bigSummary (strTake bigSummary MAX_DOCUMENT_LENGTH)
      sourceText_exC4doc extractContent_exC4doc).2
      (by rw [bigSummary_length]; decide)
  have hlen := congrArg String.length h2
  rw [length_strTake, string_length_append, length_strTake, bigSummary_length,
    truncMarker_length] at hlen
  simp only [MAX_DOCUMENT_LENGTH] at hlen
  omega

/-- A 12000-character content field, witnessing the amended content clause. -/
def exC4content : Doc := { content := some ⟨List.replicate 12000 'b'⟩ }

theorem exC4content_extract :
    extractContent exC4content =
      some (strTake ⟨List.replicate 12000 'b'⟩ MAX_DOCUMENT_LENGTH ++ truncMarker) := by
  have hlen : (⟨List.replicate 12000 'b'⟩ : String).length = 12000 :=
    List.length_replicate 12000 'b'
  rw [extractContent_eq_content rfl (pyTruthy_of_length_ne (by rw [hlen]; omega))]
  rw [if_pos (by rw [hlen]; decide)]

theorem C4_amended_witness :
    (strTake (⟨List.replicate 12000 'b'⟩ : String) MAX_DOCUMENT_LENGTH ++ truncMarker).length
        ≤ MAX_DOCUMENT_LENGTH + truncMarker.length
    ∧ strTake (⟨List.replicate 12000 'b'⟩ : String) MAX_DOCUMENT_LENGTH ++ truncMarker
        = strTake ⟨List.replicate 12000 'b'⟩ MAX_DOCUMENT_LENGTH ++ truncMarker := by
  have h := C4_amended exC4content _ exC4content_extract
  exact ⟨h.1, h.2.1 ⟨List.replicate 12000 'b'⟩ rfl
    (by rw [show (⟨List.replicate 12000 'b'⟩ : String).length = 12000 from
          List.length_replicate 12000 'b']; decide)⟩

/-! ### The full pipeline

`generate_response` is embedded as a total function from the call arguments
and an oracle of external-call outcomes to the sequence of yielded fragments,
the sequence of external calls issued, and the final `all_contexts` list. -/

structure ChatMessage where
  role : String
  content : String
deriving Repr, DecidableEq

/-- The locale message table entries read by `generate_response`
(`LOCALE_MSG[...]` lookups). -/
structure LocaleMsg where
  input_needed : String
  analyzing : String
  analyze_complete : String
  intent_small_talk : String
  search_planning : String
  plan_done : String
  searching : String
  search_keyword : String
  searching_YouTube : String
  YouTube_done : String
  ai_search_context : String
  ai_search_context_done : String
  answering : String
  search_done : String
deriving Repr, DecidableEq

/-- The `SearchEngine` values the method branches on (source lines 279-311). -/
inductive SearchEngine where
  | BING_SEARCH_CRAWLING
  | BING_GROUNDING
  | BING_GROUNDING_CRAWLING
deriving Repr, DecidableEq

/-- Call arguments of `generate_response` that the modelled algorithm reads.
`max_tokens`, `temperature` and `query_rewrite` are forwarded opaquely to
collaborators (the last is never read at all) and are omitted; `locale` only
selects the message table, which is passed resolved. -/
structure Args where
  messages : List ChatMessage
  planning : Bool
  search_engine : SearchEngine
  stream : Bool
  elapsed_time : Bool
  locale_msg : LocaleMsg
  include_web_search : Bool
  include_ytb_search : Bool
  include_mcp_server : Bool
  include_ai_search : Bool
  verbose : Bool

/-- Parsed intent payload; a field holding `none` models an absent JSON key
(defaults are applied at the `.get` call sites, source lines 207-210). -/
structure IntentData where
  user_intent : Option String := none
  enriched_query : Option String := none
  search_query : Option String := none
  resource_group_name : Option String := none
deriving Repr, DecidableEq

/-- Outcome of the `analyze_intent` invocation as observed by the caller. -/
inductive IntentOutcome where
  | raiseExc (msg : String)
  | empty
  | parseError (msg : String)
  | ok (d : IntentData)
deriving Repr, DecidableEq

/-- Outcome of the `generate_search_plan` invocation; `ok` carries the
decoded `search_queries` key when present. -/
inductive PlanOutcome where
  | raiseExc (msg : String)
  | empty
  | parseError (msg : String)
  | ok (search_queries : Option (List String))
deriving Repr, DecidableEq

/-- Outcome of a text-returning plugin invocation. -/
inductive CallOutcome where
  | raiseExc (msg : String)
  | empty
  | ok (text : String)
deriving Repr, DecidableEq

/-- Result of a successful completion call: the streamed chunk contents and
the non-streaming message content. -/
structure GenResult where
  chunks : List String := []
  content : String := ""
deriving Repr, DecidableEq

/-- Outcomes of every external call the method can issue. -/
structure Oracle where
  intent : IntentOutcome
  plan : PlanOutcome
  grounding : CallOutcome
  webCrawl : String → CallOutcome
  ytbDirect : String → CallOutcome
  ytbMcp : String → CallOutcome
  docSearch : String → DocSearchOutcome
  generate : Except String GenResult
  elapsedSecs : String

inductive TemplateKind where
  | general
  | product
deriving Repr, DecidableEq

/-- Record of one external call, carrying the arguments the source passes. -/
inductive CallRec where
  | intentCall (original_query : String)
  | planCall (user_intent enriched_query : String)
  | webGround (queries : List String)
  | webCrawl (query : String)
  | ytbDirect (query : String)
  | ytbMcp (query : String)
  | docSearch (query : String)
  | generate (template : TemplateKind) (contexts_text question : String)
deriving Repr, DecidableEq

/-- Observable result of one `generate_response` run: the yielded fragments,
the external calls in order, and the final value of `all_contexts`. -/
structure RunState where
  frags : List String
  calls : List CallRec
  contexts : List String
deriving Repr, DecidableEq

/-- SSE framing of a status fragment (`yield f"data: ..."`). -/
def dataFrag (s : String) : String := "data: " ++ s

/-- Base64 framing of a diagnostic payload in `send_step_with_code`.  The
encoding is an injective framing of an out-of-band payload that no specified
property inspects, so it is modelled as the identity on the payload text. -/
def b64Encode (s : String) : String := s

def send_step_with_code (step_name code : String) : String :=
  "### " ++ step_name ++ "#code#" ++ b64Encode code

/-- Message of the UnboundLocalError the interpreter raises when a local
variable is read before assignment; the exact interpreter wording is
version-dependent and not load-bearing. -/
def unboundMsg (v : String) : String := "cannot access local variable " ++ v

/-- Stand-in for `json.dumps` of the parsed intent payload inside a verbose
status fragment; the payload bytes are opaque to every specified property. -/
def dumpIntent (d : IntentData) : String :=
  d.user_intent.getD "" ++ "|" ++ d.enriched_query.getD "" ++ "|" ++ d.search_query.getD ""

/-- Stand-in for `json.dumps` of the decoded plan payload. -/
def dumpPlan (qs : Option (List String)) : String :=
  String.intercalate "|" (qs.getD [])

/-- Source lines 166-169: the content of the most recent user-role message,
with the sentinel default. -/
def lastUserMessage (messages : List ChatMessage) : String :=
  match messages.reverse.find? (fun m => m.role == "user") with
  | some m => m.content
  | none => "No question provided"

/-! #### Intent analysis and planning (source lines 188-269, one try block) -/

structure IntentStageOut where
  frags : List String
  calls : List CallRec
  /-- `none` models the Python local `user_intent` left unbound. -/
  user_intent : Option String
  enriched_query : String
  search_queries : List String
  planning : Bool
  include_web_search : Bool
  include_ytb_search : Bool
deriving Repr, DecidableEq

/-- Fragment yielded from the `except` handler (source lines 264-269). -/
def fallbackFrags (stream : Bool) : List String :=
  if stream then [dataFrag "### Intent analysis failed, using fallback\n\n"] else []

/-- State returned from the `except` handler when the exception fires before
the intent payload was parsed: `user_intent` stays unbound, `enriched_query`
is still the raw message and `search_queries` is set to `[enriched_query]`.
A falsy intent result (`empty`) and a JSON decode failure take the same path,
because the later read of an unbound local raises inside the same try. -/
def intentFallbackOut (a : Args) (lastMsg : String) : IntentStageOut :=
  { frags := fallbackFrags a.stream, calls := [.intentCall lastMsg],
    user_intent := none, enriched_query := lastMsg, search_queries := [lastMsg],
    planning := a.planning, include_web_search := a.include_web_search,
    include_ytb_search := a.include_ytb_search }

def intentPlanStage (a : Args) (o : Oracle) (lastMsg : String) : IntentStageOut :=
  let msg := a.locale_msg
  match o.intent with
  | .raiseExc _ => intentFallbackOut a lastMsg
  | .parseError _ => intentFallbackOut a lastMsg
  | .empty => intentFallbackOut a lastMsg
  | .ok d =>
    let ui := d.user_intent.getD "general_query"
    let enriched := d.enriched_query.getD lastMsg
    let sq0 := [d.search_query.getD lastMsg]
    let vfr := if a.verbose && a.stream then
        [dataFrag (send_step_with_code msg.analyze_complete (dumpIntent d) ++ "\n\n")]
      else []
    let isST := ui == "small_talk"
    let stFr := if isST && a.stream then
        [dataFrag ("### " ++ msg.intent_small_talk ++ "\n\n")] else []
    let planning1 := if isST then false else a.planning
    let incWeb := if isST then false else a.include_web_search
    let incYtb := if isST then false else a.include_ytb_search
    if planning1 then
      let pfr := if a.stream then
          [dataFrag ("### " ++ msg.search_planning ++ "\n\n")] else []
      let base := vfr ++ stFr ++ pfr
      let calls : List CallRec := [.intentCall lastMsg, .planCall ui enriched]
      match o.plan with
      | .raiseExc _ =>
        { frags := base ++ fallbackFrags a.stream, calls := calls,
          user_intent := some ui, enriched_query := enriched,
          search_queries := [enriched], planning := planning1,
          include_web_search := incWeb, include_ytb_search := incYtb }
      | .parseError _ =>
        { frags := base ++ fallbackFrags a.stream, calls := calls,
          user_intent := some ui, enriched_query := enriched,
          search_queries := [enriched], planning := planning1,
          include_web_search := incWeb, include_ytb_search := incYtb }
      | .empty =>
        -- a falsy plan result takes the fallback else-branch; in verbose
        -- streaming mode the later read of the unbound local plan_data
        -- raises into the same handler, with the same resulting state
        { frags := base ++ (if a.verbose && a.stream then fallbackFrags a.stream else []),
          calls := calls,
          user_intent := some ui, enriched_query := enriched,
          search_queries := [enriched], planning := planning1,
          include_web_search := incWeb, include_ytb_search := incYtb }
      | .ok qs =>
        let pvfr := if a.verbose && a.stream then
            [dataFrag (send_step_with_code msg.plan_done (dumpPlan qs) ++ "\n\n")]
          else []
        { frags := base ++ pvfr, calls := calls,
          user_intent := some ui, enriched_query := enriched,
          search_queries := qs.getD [enriched], planning := planning1,
          include_web_search := incWeb, include_ytb_search := incYtb }
    else
      { frags := vfr ++ stFr, calls := [.intentCall lastMsg],
        user_intent := some ui, enriched_query := enriched,
        search_queries := sq0, planning := planning1,
        include_web_search := incWeb, include_ytb_search := incYtb }

/-! #### Web search stage (source lines 276-356) -/

structure StageOut where
  frags : List String
  calls : List CallRec
  blocks : List String
deriving Repr, DecidableEq

def webErrFrags (stream : Bool) (e : String) : List String :=
  if stream then [dataFrag ("### Error during web search: " ++ e ++ "\n\n")] else []

structure WebLoopOut where
  frags : List String
  calls : List CallRec
  found : List String
  failed : Bool
deriving Repr, DecidableEq

/-- Per-query crawling loop (source lines 319-343).  An exception aborts the
remaining queries of this stage. -/
def webCrawlLoop (stream : Bool) (msg : LocaleMsg) (f : String → CallOutcome) (n : Nat) :
    Nat → List String → WebLoopOut
  | _, [] => ⟨[], [], [], false⟩
  | i, q :: rest =>
    let fr := if stream then
        [dataFrag ("### " ++ msg.searching ++ " (" ++ Nat.repr (i + 1) ++ "/"
          ++ Nat.repr n ++ "): " ++ q ++ "\n\n")]
      else []
    match f q with
    | .raiseExc e => ⟨fr ++ webErrFrags stream e, [.webCrawl q], [], true⟩
    | .empty =>
      let r := webCrawlLoop stream msg f n (i + 1) rest
      ⟨fr ++ r.frags, .webCrawl q :: r.calls, r.found, r.failed⟩
    | .ok t =>
      let r := webCrawlLoop stream msg f n (i + 1) rest
      ⟨fr ++ r.frags, .webCrawl q :: r.calls, t :: r.found, r.failed⟩

/-- The per-query lines of the grounding status text (source lines 284-285). -/
def groundingQueryLines (msg : LocaleMsg) : Nat → List String → String
  | _, [] => ""
  | i, q :: rest =>
    Nat.repr i ++ ": " ++ msg.search_keyword ++ ": " ++ q ++ " <br>"
      ++ groundingQueryLines msg (i + 1) rest

/-- Web search stage.  In the grounding branch, and in the crawling branch
with no collected fragment, the verbose streaming read of the unbound local
`combined_web_context` raises and is caught by this stage&apos;s handler. -/
def webStage (a : Args) (o : Oracle) (sq : List String) (incWeb : Bool) : StageOut :=
  let msg := a.locale_msg
  if incWeb && !sq.isEmpty then
    match a.search_engine with
    | .BING_GROUNDING =>
      let taq := msg.searching ++ "...<br>" ++ groundingQueryLines msg 0 sq
      let fr0 := if a.stream then [dataFrag ("### " ++ taq ++ "\n\n")] else []
      let vfr := if a.verbose && a.stream then
          webErrFrags a.stream (unboundMsg "combined_web_context") else []
      match o.grounding with
      | .raiseExc e => ⟨fr0 ++ webErrFrags a.stream e, [.webGround sq], []⟩
      | .empty => ⟨fr0 ++ vfr, [.webGround sq], []⟩
      | .ok t => ⟨fr0 ++ vfr, [.webGround sq], ["=== Grounding Search ===\n" ++ t]⟩
    | _ =>
      let r := webCrawlLoop a.stream msg o.webCrawl sq.length 0 sq
      if r.failed then ⟨r.frags, r.calls, []⟩
      else if r.found.isEmpty then
        let vfr := if a.verbose && a.stream then
            webErrFrags a.stream (unboundMsg "combined_web_context") else []
        ⟨r.frags ++ vfr, r.calls, []⟩
      else
        let combined := String.intercalate "\n\n" r.found
        let vfr := if a.verbose && a.stream then
            [dataFrag (send_step_with_code msg.search_done combined ++ "\n\n")] else []
        ⟨r.frags ++ vfr, r.calls, ["=== Web Search ===\n" ++ combined]⟩
  else ⟨[], [], []⟩

/-! #### Video search stage (source lines 359-402)

Note two behaviours of the source reproduced faithfully here: the invocation
argument is `enriched_query` for every planned query (line 373), and the
labelled block append sits inside the query loop (lines 392-394), so each
iteration whose accumulated context list is nonempty appends one more block. -/

structure YtbLoopOut where
  frags : List String
  calls : List CallRec
  blocks : List String
  found : List String
  failed : Bool
deriving Repr, DecidableEq

def ytbErrFrags (stream : Bool) (e : String) : List String :=
  if stream then
    [dataFrag ("### : Error during Youtube MCP search: " ++ e ++ "\n\n")] else []

def ytbLoop (stream mcp : Bool) (msg : LocaleMsg) (f : String → CallOutcome)
    (enriched : String) (n : Nat) :
    Nat → List String → List String → YtbLoopOut
  | _, [], acc => ⟨[], [], [], acc, false⟩
  | i, q :: rest, acc =>
    let fr := if stream then
        [dataFrag ("### " ++ msg.searching_YouTube ++ " (" ++ Nat.repr (i + 1) ++ "/"
          ++ Nat.repr n ++ "): " ++ q ++ "\n\n")]
      else []
    let call := if mcp then CallRec.ytbMcp enriched else CallRec.ytbDirect enriched
    match f enriched with
    | .raiseExc e => ⟨fr ++ ytbErrFrags stream e, [call], [], acc, true⟩
    | .empty =>
      let blocks := if acc.isEmpty then []
        else ["=== Youtube Search ===\n" ++ String.intercalate "\n\n" acc]
      let r := ytbLoop stream mcp msg f enriched n (i + 1) rest acc
      ⟨fr ++ r.frags, call :: r.calls, blocks ++ r.blocks, r.found, r.failed⟩
    | .ok t =>
      let acc1 := acc ++ [t]
      let blocks := ["=== Youtube Search ===\n" ++ String.intercalate "\n\n" acc1]
      let r := ytbLoop stream mcp msg f enriched n (i + 1) rest acc1
      ⟨fr ++ r.frags, call :: r.calls, blocks ++ r.blocks, r.found, r.failed⟩

def ytbStage (a : Args) (o : Oracle) (sq : List String) (enriched : String)
    (incYtb : Bool) : StageOut :=
  let msg := a.locale_msg
  if incYtb then
    let f := if a.include_mcp_server then o.ytbMcp else o.ytbDirect
    let r := ytbLoop a.stream a.include_mcp_server msg f enriched sq.length 0 sq []
    if r.failed then ⟨r.frags, r.calls, r.blocks⟩
    else
      let vfr :=
        if a.verbose && a.stream then
          if r.found.isEmpty then
            ytbErrFrags a.stream (unboundMsg "combined_youtube_context")
          else
            [dataFrag (send_step_with_code msg.YouTube_done
              (String.intercalate "\n\n" r.found) ++ "\n\n")]
        else []
      ⟨r.frags ++ vfr, r.calls, r.blocks⟩
  else ⟨[], [], []⟩

/-! #### Document search stage (source lines 404-508) -/

structure DocLoopOut where
  frags : List String
  calls : List CallRec
  st : DocState
  aborted : Bool
deriving Repr, DecidableEq

/-- The per-query status fragment of the document stage (source line 417). -/
def docQueryFrag (msg : LocaleMsg) (i n : Nat) (q : String) : String :=
  "### " ++ msg.ai_search_context ++ " (" ++ Nat.repr (i + 1) ++ "/"
    ++ Nat.repr n ++ "): " ++ q ++ "\n\n"

/-- Outer query loop of the document stage with its yielded fragments and
calls; the state evolution is exactly `docLoopState` (see
`docLoopFull_state`). -/
def docLoopFull (stream : Bool) (msg : LocaleMsg) (n : Nat) :
    Nat → List (String × DocSearchOutcome) → DocState → DocLoopOut
  | _, [], st => ⟨[], [], st, false⟩
  | i, (q, out) :: rest, st =>
    let fr := if stream then [dataFrag (docQueryFrag msg i n q)] else []
    match out with
    | .raiseExc e =>
      ⟨fr ++ (if stream then
          [dataFrag ("### Error processing documents: " ++ e ++ "\n\n")] else []),
       [.docSearch q], st, true⟩
    | out =>
      let st1 := docQueryStep i out st
      if MAX_CONTEXT_LENGTH ≤ st1.total then ⟨fr, [.docSearch q], st1, false⟩
      else
        let r := docLoopFull stream msg n (i + 1) rest st1
        ⟨fr ++ r.frags, .docSearch q :: r.calls, r.st, r.aborted⟩

def docStage (a : Args) (o : Oracle) (sq : List String) : StageOut :=
  let msg := a.locale_msg
  if a.include_ai_search then
    let pairs := sq.map (fun q => (q, o.docSearch q))
    let r := docLoopFull a.stream msg sq.length 0 pairs initDocState
    if r.aborted then ⟨r.frags, r.calls, []⟩
    else
      let combined := if r.st.doc_contexts.isEmpty then ""
        else String.intercalate "\n\n" r.st.doc_contexts
      let blocks := if r.st.doc_contexts.isEmpty then []
        else ["=== Document Context ===\n" ++ combined]
      let vfr := if a.verbose && a.stream && pyTruthy combined then
          [dataFrag (send_step_with_code msg.ai_search_context_done
            (if combined.length > 200 then strTake combined 200 ++ "... [truncated for display]"
             else combined) ++ "\n\n")]
        else []
      ⟨r.frags ++ vfr, r.calls, blocks⟩
  else ⟨[], [], []⟩

/-! #### The whole method (source lines 159-582) -/

/-- Everything after the empty-input guard (source lines 177-582). -/
def generateBody (a : Args) (o : Oracle) (lastMsg : String) : RunState :=
  let msg := a.locale_msg
  let aFr := if a.stream then [dataFrag ("### " ++ msg.analyzing ++ "\n\n")] else []
  let ist := intentPlanStage a o lastMsg
  let web := webStage a o ist.search_queries ist.include_web_search
  let ytb := ytbStage a o ist.search_queries ist.enriched_query ist.include_ytb_search
  let doc := docStage a o ist.search_queries
  let ansFr := if a.stream then [dataFrag ("### " ++ msg.answering ++ "\n\n")] else []
  let ctx0 := web.blocks ++ ytb.blocks ++ doc.blocks
  let all_contexts := if ctx0.isEmpty then ["No relevant context found."] else ctx0
  let contexts_text := String.intercalate "\n" all_contexts
  let preFrags := aFr ++ ist.frags ++ web.frags ++ ytb.frags ++ doc.frags
    ++ ansFr ++ [" \n"]
  let preCalls := ist.calls ++ web.calls ++ ytb.calls ++ doc.calls
  match ist.user_intent with
  | none =>
    -- source line 523 reads the unbound local user_intent; the
    -- UnboundLocalError reaches the outermost handler (lines 579-582)
    ⟨preFrags ++ ["Error: " ++ unboundMsg "user_intent"], preCalls, all_contexts⟩
  | some ui =>
    let tmpl := if ui == "general_query" then TemplateKind.general
      else if ui == "product_query" then TemplateKind.product
      else TemplateKind.general
    let genCall := CallRec.generate tmpl contexts_text ist.enriched_query
    match o.generate with
    | .error e => ⟨preFrags ++ ["Error: " ++ e], preCalls ++ [genCall], all_contexts⟩
    | .ok g =>
      let ansFrags := if a.stream then g.chunks.filter (fun c => c.length != 0)
        else [g.content]
      let elapsedFrags := if a.elapsed_time then
          ["\n", "Plan search response generated successfully in "
            ++ o.elapsedSecs ++ " seconds \n"]
        else []
      ⟨preFrags ++ ansFrags ++ ["\n"] ++ elapsedFrags, preCalls ++ [genCall], all_contexts⟩

def generateResponse (a : Args) (o : Oracle) : RunState :=
  let lastMsg := lastUserMessage a.messages
  if lastMsg == "No question provided" then
    ⟨[a.locale_msg.input_needed], [], []⟩
  else generateBody a o lastMsg

theorem generateResponse_guard (a : Args) (o : Oracle)
    (h : lastUserMessage a.messages = "No question provided") :
    generateResponse a o = ⟨[a.locale_msg.input_needed], [], []⟩ := by
  unfold generateResponse
  rw [if_pos (by rw [h]; exact beq_self_eq_true _)]

theorem generateResponse_body (a : Args) (o : Oracle)
    (h : lastUserMessage a.messages ≠ "No question provided") :
    generateResponse a o = generateBody a o (lastUserMessage a.messages) := by
  unfold generateResponse
  rw [if_neg (by simpa using h)]

/-! ### Concrete inputs shared by the claim instances -/

def exMsg : LocaleMsg :=
  { input_needed := "INPUT-NEEDED", analyzing := "ANALYZING", analyze_complete := "AC",
    intent_small_talk := "SMALL-TALK", search_planning := "PLANNING", plan_done := "PD",
    searching := "SEARCHING", search_keyword := "KW", searching_YouTube := "SY",
    YouTube_done := "YD", ai_search_context := "AICTX", ai_search_context_done := "AID",
    answering := "ANSWERING", search_done := "SD" }

/-- An oracle in which every collaborator yields nothing and generation
succeeds with a fixed answer. -/
def quietOracle : Oracle :=
  { intent := .empty, plan := .empty, grounding := .empty,
    webCrawl := fun _ => .empty, ytbDirect := fun _ => .empty,
    ytbMcp := fun _ => .empty, docSearch := fun _ => .empty,
    generate := .ok { content := "ANSWER" }, elapsedSecs := "0.1" }

/-! ### Claim C7: empty or missing user message -/

/-- The request property of claim C7: the messages hold an empty or missing
user message (no user-role message at all, or the latest one has empty
content). -/
def emptyOrMissingUser (messages : List ChatMessage) : Prop :=
  match messages.reverse.find? (fun m => m.role == "user") with
  | none => True
  | some m => m.content = ""

/-- Claim C7 as stated: for every request with an empty or missing user
message, the output is exactly the locale input-needed message and no
external calls occur. -/
def claimC7 : Prop :=
  ∀ (a : Args) (o : Oracle), emptyOrMissingUser a.messages →
    (generateResponse a o).frags = [a.locale_msg.input_needed]
    ∧ (generateResponse a o).calls = []

def exC7args : Args :=
  { messages := [{ role := "user", content := "" }], planning := true,
    search_engine := .BING_SEARCH_CRAWLING, stream := false, elapsed_time := false,
    locale_msg := exMsg, include_web_search := false, include_ytb_search := false,
    include_mcp_server := false, include_ai_search := true, verbose := false }

def exC7oracle : Oracle := { quietOracle with intent := .raiseExc "classifier down" }

/-- Counterexample to claim C7 as stated: a present user message with empty
content does not trigger the guard (the sentinel comparison at source line
173 only detects a missing user message), so the pipeline proceeds and
issues a document-retrieval call. -/
theorem C7_counterexample : ¬ claimC7 := by
  intro h
  have hcl := h exC7args exC7oracle (by exact rfl)
  have hev : (generateResponse exC7args exC7oracle).calls
      = [CallRec.intentCall "", CallRec.docSearch ""] := by decide
  rw [hev] at hcl
  exact List.noConfusion hcl.2

/-- Amended claim C7: for every request whose messages contain no user-role
message at all, the output is exactly the locale input-needed message and no
external calls occur.  (A user message with empty content does not trigger
the guard.) -/
theorem C7_amended :
    ∀ (a : Args) (o : Oracle), (∀ m ∈ a.messages, m.role ≠ "user") →
      generateResponse a o = ⟨[a.locale_msg.input_needed], [], []⟩ := by
  intro a o h
  apply generateResponse_guard
  unfold lastUserMessage
  have hfind : a.messages.reverse.find? (fun m => m.role == "user") = none := by
    rw [List.find?_eq_none]
    intro m hm
    simpa using h m (List.mem_reverse.mp hm)
  rw [hfind]

def exC7wargs : Args := { exC7args with messages := [{ role := "assistant", content := "hi" }] }

theorem C7_amended_witness :
    generateResponse exC7wargs quietOracle =
      ⟨[exMsg.input_needed], [], []⟩ :=
  C7_amended exC7wargs quietOracle (by decide)

/-! ### Claim C2: classifier failure must not prevent generation -/

def exC2args : Args :=
  { messages := [{ role := "user", content := "hello" }], planning := true,
    search_engine := .BING_SEARCH_CRAWLING, stream := false, elapsed_time := true,
    locale_msg := exMsg, include_web_search := false, include_ytb_search := false,
    include_mcp_server := true, include_ai_search := true, verbose := false }

def exC2oracle : Oracle :=
  { quietOracle with
    intent := .raiseExc "LLM down",
    docSearch := fun _ => .ok "success" [{ id := some "d1", content := some "alpha" }] }

/-- Evaluation of the code at the C2 failing input: the classifier raises,
retrieval still runs (the document search is called with the raw message as
query and its result reaches `all_contexts`), but the final read of the
never-assigned local `user_intent` at source line 523 raises, so the
completion call is never issued and the run ends with an `Error:` fragment
instead of a generated answer. -/
theorem C2_bug :
    generateResponse exC2args exC2oracle =
      { frags := [" \n", "Error: " ++ unboundMsg "user_intent"],
        calls := [.intentCall "hello", .docSearch "hello"],
        contexts := ["=== Document Context ===\nalpha"] } := by decide

/-! ### Claim C5: one labelled context block per source -/

def exC5args : Args :=
  { messages := [{ role := "user", content := "question" }], planning := true,
    search_engine := .BING_SEARCH_CRAWLING, stream := false, elapsed_time := false,
    locale_msg := exMsg, include_web_search := false, include_ytb_search := true,
    include_mcp_server := true, include_ai_search := false, verbose := false }

def exC5oracle : Oracle :=
  { quietOracle with
    intent := .ok { user_intent := some "general_query", enriched_query := some "eq",
                    search_query := some "q0" },
    plan := .ok (some ["q1", "q2"]),
    ytbMcp := fun _ => .ok "vid" }

/-- Evaluation of the code at the C5 failing input: with two planned queries
whose video searches both return content, the video stage appends one
labelled block per loop iteration (the append sits inside the loop, source
lines 392-394), so the final context list holds two `Youtube Search` blocks,
the second containing the first result twice. -/
theorem C5_bug :
    (generateResponse exC5args exC5oracle).contexts =
      ["=== Youtube Search ===\nvid", "=== Youtube Search ===\nvid\n\nvid"]
    ∧ (generateResponse exC5args exC5oracle).contexts.length = 2 := by decide

/-! ### Claim C6: the video backend receives the planned query -/

def exC6args : Args :=
  { messages := [{ role := "user", content := "question" }], planning := true,
    search_engine := .BING_SEARCH_CRAWLING, stream := false, elapsed_time := false,
    locale_msg := exMsg, include_web_search := false, include_ytb_search := true,
    include_mcp_server := true, include_ai_search := false, verbose := false }

def exC6oracle : Oracle :=
  { quietOracle with
    intent := .ok { user_intent := some "general_query", enriched_query := some "eq",
                    search_query := some "q0" },
    plan := .ok (some ["q1", "q2"]) }

/-- Evaluation of the code at the C6 failing input: the video stage iterates
over the two planned queries but invokes the backend with `enriched_query`
both times (source line 373), never with the planned queries themselves. -/
theorem C6_bug :
    (generateResponse exC6args exC6oracle).calls =
      [.intentCall "question", .planCall "general_query" "eq",
       .ytbMcp "eq", .ytbMcp "eq",
       .generate .general "No relevant context found." "eq"]
    ∧ ("eq" : String) ≠ "q1" ∧ ("eq" : String) ≠ "q2" := by decide

/-! ### Unfolding and projection lemmas for the pipeline stages -/

theorem docLoopFull_raiseEq (stream : Bool) (msg : LocaleMsg) (n i : Nat) (q e : String)
    (rest : List (String × DocSearchOutcome)) (st : DocState) :
    docLoopFull stream msg n i ((q, .raiseExc e) :: rest) st =
      ⟨(if stream then [dataFrag (docQueryFrag msg i n q)] else [])
          ++ (if stream then
            [dataFrag ("### Error processing documents: " ++ e ++ "\n\n")] else []),
        [.docSearch q], st, true⟩ := rfl

theorem docLoopFull_cons (stream : Bool) (msg : LocaleMsg) (n i : Nat) (q : String)
    (out : DocSearchOutcome) (rest : List (String × DocSearchOutcome)) (st : DocState)
    (h : ∀ e, out ≠ DocSearchOutcome.raiseExc e) :
    docLoopFull stream msg n i ((q, out) :: rest) st =
      (if MAX_CONTEXT_LENGTH ≤ (docQueryStep i out st).total then
        ⟨(if stream then [dataFrag (docQueryFrag msg i n q)] else []), [.docSearch q],
          docQueryStep i out st, false⟩
      else
        ⟨(if stream then [dataFrag (docQueryFrag msg i n q)] else [])
            ++ (docLoopFull stream msg n (i + 1) rest (docQueryStep i out st)).frags,
          .docSearch q :: (docLoopFull stream msg n (i + 1) rest (docQueryStep i out st)).calls,
          (docLoopFull stream msg n (i + 1) rest (docQueryStep i out st)).st,
          (docLoopFull stream msg n (i + 1) rest (docQueryStep i out st)).aborted⟩) := by
  cases out with
  | raiseExc e => exact absurd rfl (h e)
  | empty => rfl
  | ok status docs => rfl

/-- The state component of the document loop is exactly `docLoopState`. -/
theorem docLoopFull_state (stream : Bool) (msg : LocaleMsg) (n : Nat) :
    ∀ (i : Nat) (qs : List (String × DocSearchOutcome)) (st : DocState),
      (docLoopFull stream msg n i qs st).st = docLoopState i (qs.map Prod.snd) st := by
  intro i qs
  induction qs generalizing i with
  | nil => intro st; rfl
  | cons p rest ih =>
    intro st
    obtain ⟨q, out⟩ := p
    rw [List.map_cons]
    by_cases hr : ∃ e, out = DocSearchOutcome.raiseExc e
    · obtain ⟨e, rfl⟩ := hr
      rfl
    · push_neg at hr
      rw [docLoopFull_cons stream msg n i q out rest st hr,
        docLoopState_cons i out (rest.map Prod.snd) st hr]
      by_cases h : MAX_CONTEXT_LENGTH ≤ (docQueryStep i out st).total
      · rw [if_pos h, if_pos h]
      · rw [if_neg h, if_neg h]
        exact ih (i + 1) _

theorem docLoopFull_calls (stream : Bool) (msg : LocaleMsg) (n : Nat) :
    ∀ (i : Nat) (qs : List (String × DocSearchOutcome)) (st : DocState),
      ∀ c ∈ (docLoopFull stream msg n i qs st).calls, ∃ q, c = CallRec.docSearch q := by
  intro i qs
  induction qs generalizing i with
  | nil =>
    intro st c hc
    exact absurd hc (List.not_mem_nil c)
  | cons p rest ih =>
    intro st c hc
    obtain ⟨q, out⟩ := p
    by_cases hr : ∃ e, out = DocSearchOutcome.raiseExc e
    · obtain ⟨e, rfl⟩ := hr
      rw [docLoopFull_raiseEq] at hc
      exact ⟨q, List.mem_singleton.mp hc⟩
    · push_neg at hr
      rw [docLoopFull_cons stream msg n i q out rest st hr] at hc
      by_cases h : MAX_CONTEXT_LENGTH ≤ (docQueryStep i out st).total
      · rw [if_pos h] at hc
        exact ⟨q, List.mem_singleton.mp hc⟩
      · rw [if_neg h] at hc
        rcases List.mem_cons.mp hc with h1 | h1
        · exact ⟨q, h1⟩
        · exact ih (i + 1) _ c h1

theorem webStage_off (a : Args) (o : Oracle) (sq : List String) :
    webStage a o sq false = ⟨[], [], []⟩ := rfl

theorem ytbStage_off (a : Args) (o : Oracle) (sq : List String) (e : String) :
    ytbStage a o sq e false = ⟨[], [], []⟩ := rfl

theorem docStage_calls (a : Args) (o : Oracle) (sq : List String) :
    ∀ c ∈ (docStage a o sq).calls, ∃ q, c = CallRec.docSearch q := by
  intro c hc
  unfold docStage at hc
  by_cases hai : a.include_ai_search = true
  · rw [if_pos hai] at hc
    dsimp only at hc
    by_cases hab : (docLoopFull a.stream a.locale_msg sq.length 0
        (sq.map fun q => (q, o.docSearch q)) initDocState).aborted = true
    · rw [if_pos hab] at hc
      exact docLoopFull_calls _ _ _ _ _ _ c hc
    · rw [if_neg hab] at hc
      exact docLoopFull_calls _ _ _ _ _ _ c hc
  · rw [if_neg hai] at hc
    exact absurd hc (List.not_mem_nil c)

/-- Every call issued by the body is a call of one of the four stages or the
final completion call. -/
theorem generateBody_calls_mem (a : Args) (o : Oracle) (m : String) (c : CallRec)
    (hc : c ∈ (generateBody a o m).calls) :
    c ∈ (intentPlanStage a o m).calls
    ∨ c ∈ (webStage a o (intentPlanStage a o m).search_queries
        (intentPlanStage a o m).include_web_search).calls
    ∨ c ∈ (ytbStage a o (intentPlanStage a o m).search_queries
        (intentPlanStage a o m).enriched_query
        (intentPlanStage a o m).include_ytb_search).calls
    ∨ c ∈ (docStage a o (intentPlanStage a o m).search_queries).calls
    ∨ ∃ t ct q, c = CallRec.generate t ct q := by
  unfold generateBody at hc
  dsimp only at hc
  cases hui : (intentPlanStage a o m).user_intent with
  | none =>
    rw [hui] at hc
    dsimp only at hc
    simp only [List.mem_append] at hc
    rcases hc with (((h | h) | h) | h)
    · exact Or.inl h
    · exact Or.inr (Or.inl h)
    · exact Or.inr (Or.inr (Or.inl h))
    · exact Or.inr (Or.inr (Or.inr (Or.inl h)))
  | some ui =>
    rw [hui] at hc
    cases hgen : o.generate with
    | error e =>
      rw [hgen] at hc
      dsimp only at hc
      simp only [List.mem_append, List.mem_singleton] at hc
      rcases hc with ((((h | h) | h) | h) | h)
      · exact Or.inl h
      · exact Or.inr (Or.inl h)
      · exact Or.inr (Or.inr (Or.inl h))
      · exact Or.inr (Or.inr (Or.inr (Or.inl h)))
      · exact Or.inr (Or.inr (Or.inr (Or.inr ⟨_, _, _, h⟩)))
    | ok g =>
      rw [hgen] at hc
      dsimp only at hc
      simp only [List.mem_append, List.mem_singleton] at hc
      rcases hc with ((((h | h) | h) | h) | h)
      · exact Or.inl h
      · exact Or.inr (Or.inl h)
      · exact Or.inr (Or.inr (Or.inl h))
      · exact Or.inr (Or.inr (Or.inr (Or.inl h)))
      · exact Or.inr (Or.inr (Or.inr (Or.inr ⟨_, _, _, h⟩)))

/-- The classification-stage result under a small-talk classification. -/
theorem intentPlanStage_small_talk (a : Args) (o : Oracle) (m : String) (d : IntentData)
    (hint : o.intent = .ok d) (hui : d.user_intent.getD "general_query" = "small_talk") :
    intentPlanStage a o m =
      { frags := (if a.verbose && a.stream then
            [dataFrag (send_step_with_code a.locale_msg.analyze_complete (dumpIntent d)
              ++ "\n\n")]
          else [])
          ++ (if a.stream then
            [dataFrag ("### " ++ a.locale_msg.intent_small_talk ++ "\n\n")] else []),
        calls := [.intentCall m],
        user_intent := some "small_talk",
        enriched_query := d.enriched_query.getD m,
        search_queries := [d.search_query.getD m],
        planning := false, include_web_search := false, include_ytb_search := false } := by
  unfold intentPlanStage
  rw [hint]
  dsimp only
  rw [hui]
  simp

/-! ### Claim C8: small talk force-disables planning, web and video search -/

/-- Calls belonging to the stages that a small-talk classification must
disable: planning, web search (either mode) and video search (either
backend). -/
def isSearchStageCall : CallRec → Bool
  | .planCall _ _ => true
  | .webGround _ => true
  | .webCrawl _ => true
  | .ytbDirect _ => true
  | .ytbMcp _ => true
  | _ => false

/-- Claim C8: when the classifier returns `small_talk`, no planning call, no
web-search call and no video-search call is issued for the rest of the
request, regardless of the caller-supplied `planning`, `include_web_search`
and `include_ytb_search` flags. -/
theorem C8_small_talk_disables :
    ∀ (a : Args) (o : Oracle) (d : IntentData),
      o.intent = .ok d → d.user_intent.getD "general_query" = "small_talk" →
      (generateResponse a o).calls.all (fun c => !(isSearchStageCall c)) = true := by
  intro a o d hint hui
  rw [List.all_eq_true]
  intro c hc
  by_cases hg : lastUserMessage a.messages = "No question provided"
  · rw [generateResponse_guard a o hg] at hc
    exact absurd hc (List.not_mem_nil c)
  · rw [generateResponse_body a o hg] at hc
    rcases generateBody_calls_mem a o _ c hc with h | h | h | h | ⟨t, ct, q, rfl⟩
    · rw [intentPlanStage_small_talk a o _ d hint hui] at h
      rw [List.mem_singleton.mp h]
      rfl
    · rw [intentPlanStage_small_talk a o _ d hint hui] at h
      dsimp only at h
      rw [webStage_off] at h
      exact absurd h (List.not_mem_nil c)
    · rw [intentPlanStage_small_talk a o _ d hint hui] at h
      dsimp only at h
      rw [ytbStage_off] at h
      exact absurd h (List.not_mem_nil c)
    · rcases docStage_calls a o _ c h with ⟨q, rfl⟩
      rfl
    · rfl

def exC8d : IntentData :=
  { user_intent := some "small_talk", enriched_query := some "eq",
    search_query := some "sq" }

def exC8args : Args :=
  { messages := [{ role := "user", content := "hey" }], planning := true,
    search_engine := .BING_SEARCH_CRAWLING, stream := true, elapsed_time := false,
    locale_msg := exMsg, include_web_search := true, include_ytb_search := true,
    include_mcp_server := true, include_ai_search := false, verbose := false }

def exC8oracle : Oracle := { quietOracle with intent := .ok exC8d }

theorem C8_small_talk_disables_witness :
    (generateResponse exC8args exC8oracle).calls.all
      (fun c => !(isSearchStageCall c)) = true :=
  C8_small_talk_disables exC8args exC8oracle exC8d rfl rfl

/-! ### Claim C10: small talk does not disable indexed-document retrieval -/

/-- Bound on every admitted document text (shared by C4 and C10). -/
theorem extractContent_length_le {d : Doc} {t : String}
    (hE : extractContent d = some t) :
    t.length ≤ MAX_DOCUMENT_LENGTH + truncMarker.length := by
  rcases extractContent_cases d t hE with ⟨c, _, _, hcase⟩ | ⟨s, _, _, ht, _⟩
  · rcases hcase with ⟨hlen, ht⟩ | ⟨hlen, ht⟩
    · rw [ht, string_length_append, length_strTake]
      omega
    · rw [ht]
      omega
  · rw [ht, length_strTake]
    omega

/-- Evaluation of the document stage on a single query returning one document
with usable text. -/
theorem docStage_single (a : Args) (o : Oracle) (q : String) (dd : Doc) (t : String)
    (hai : a.include_ai_search = true)
    (hdoc : o.docSearch q = .ok "success" [dd])
    (hex : extractContent dd = some t) :
    (docStage a o [q]).calls = [CallRec.docSearch q]
    ∧ (docStage a o [q]).blocks = ["=== Document Context ===\n" ++ t] := by
  have hb := extractContent_length_le hex
  rw [show MAX_DOCUMENT_LENGTH + truncMarker.length = 10015 from rfl] at hb
  have hkeep : processDocs 0 1 [dd] initDocState =
      { doc_contexts := [t], seen := [docIdentity dd 0 1],
        total := t.length, rejected := false } := by
    rw [@processDocs_cons_keep 0 1 dd ([] : List Doc) initDocState t
      (List.not_mem_nil _) hex
      (by show 0 + t.length ≤ MAX_CONTEXT_LENGTH
          rw [show MAX_CONTEXT_LENGTH = 400000 from rfl]
          omega)]
    rw [processDocs_nil]
    rw [show initDocState.total + t.length = 0 + t.length from rfl, Nat.zero_add]
    rfl
  have hceil : ¬ MAX_CONTEXT_LENGTH ≤
      (({ doc_contexts := [t], seen := [docIdentity dd 0 1],
          total := t.length, rejected := false } : DocState)).total := by
    show ¬ MAX_CONTEXT_LENGTH ≤ t.length
    rw [show MAX_CONTEXT_LENGTH = 400000 from rfl]
    omega
  have hloop : docLoopFull a.stream a.locale_msg 1 0
      [(q, DocSearchOutcome.ok "success" [dd])] initDocState =
      ⟨(if a.stream then [dataFrag (docQueryFrag a.locale_msg 0 1 q)] else []),
        [.docSearch q],
        { doc_contexts := [t], seen := [docIdentity dd 0 1],
          total := t.length, rejected := false },
        false⟩ := by
    rw [docLoopFull_cons _ _ _ _ _ _ _ _ (fun e he => DocSearchOutcome.noConfusion he)]
    rw [docQueryStep_ok_one, hkeep]
    rw [if_neg hceil]
    simp only [docLoopFull, List.append_nil]
  constructor
  · show (docStage a o [q]).calls = _
    unfold docStage
    rw [if_pos hai]
    simp only [List.map_cons, List.map_nil, List.length_cons, List.length_nil]
    rw [hdoc, hloop]
    rfl
  · show (docStage a o [q]).blocks = _
    unfold docStage
    rw [if_pos hai]
    simp only [List.map_cons, List.map_nil, List.length_cons, List.length_nil]
    rw [hdoc, hloop]
    rfl

/-- The final `all_contexts` of the body, independent of the generation
outcome. -/
theorem generateBody_contexts (a : Args) (o : Oracle) (m : String) :
    (generateBody a o m).contexts =
      (if ((webStage a o (intentPlanStage a o m).search_queries
            (intentPlanStage a o m).include_web_search).blocks
          ++ (ytbStage a o (intentPlanStage a o m).search_queries
              (intentPlanStage a o m).enriched_query
              (intentPlanStage a o m).include_ytb_search).blocks
          ++ (docStage a o (intentPlanStage a o m).search_queries).blocks).isEmpty
      then ["No relevant context found."]
      else (webStage a o (intentPlanStage a o m).search_queries
            (intentPlanStage a o m).include_web_search).blocks
          ++ (ytbStage a o (intentPlanStage a o m).search_queries
              (intentPlanStage a o m).enriched_query
              (intentPlanStage a o m).include_ytb_search).blocks
          ++ (docStage a o (intentPlanStage a o m).search_queries).blocks) := by
  unfold generateBody
  dsimp only
  cases hui : (intentPlanStage a o m).user_intent with
  | none => rfl
  | some ui =>
    cases hgen : o.generate with
    | error e => rfl
    | ok g => rfl

/-- Every stage call is among the calls of the body. -/
theorem generateBody_calls_stage (a : Args) (o : Oracle) (m : String) (c : CallRec)
    (h : c ∈ (intentPlanStage a o m).calls
      ∨ c ∈ (webStage a o (intentPlanStage a o m).search_queries
          (intentPlanStage a o m).include_web_search).calls
      ∨ c ∈ (ytbStage a o (intentPlanStage a o m).search_queries
          (intentPlanStage a o m).enriched_query
          (intentPlanStage a o m).include_ytb_search).calls
      ∨ c ∈ (docStage a o (intentPlanStage a o m).search_queries).calls) :
    c ∈ (generateBody a o m).calls := by
  unfold generateBody
  dsimp only
  cases hui : (intentPlanStage a o m).user_intent with
  | none =>
    simp only [List.mem_append] at h ⊢
    tauto
  | some ui =>
    cases hgen : o.generate with
    | error e =>
      simp only [List.mem_append] at h ⊢
      tauto
    | ok g =>
      simp only [List.mem_append] at h ⊢
      tauto

/-- Claim C10: a small-talk classification leaves `include_ai_search`
untouched, so with that flag set the document-search stage still runs (the
call is issued with the classifier&apos;s search query) and a successful
single-document result still contributes the Document Context block. -/
theorem C10_small_talk_keeps_ai_search :
    ∀ (a : Args) (o : Oracle) (d : IntentData) (dd : Doc) (t : String),
      lastUserMessage a.messages ≠ "No question provided" →
      o.intent = .ok d →
      d.user_intent.getD "general_query" = "small_talk" →
      a.include_ai_search = true →
      o.docSearch (d.search_query.getD (lastUserMessage a.messages))
        = .ok "success" [dd] →
      extractContent dd = some t →
      CallRec.docSearch (d.search_query.getD (lastUserMessage a.messages))
          ∈ (generateResponse a o).calls
      ∧ ("=== Document Context ===\n" ++ t) ∈ (generateResponse a o).contexts := by
  intro a o d dd t hg hint hui hai hdoc hex
  have hist := intentPlanStage_small_talk a o (lastUserMessage a.messages) d hint hui
  obtain ⟨hdc, hdb⟩ := docStage_single a o
    (d.search_query.getD (lastUserMessage a.messages)) dd t hai hdoc hex
  constructor
  · rw [generateResponse_body a o hg]
    apply generateBody_calls_stage
    right; right; right
    rw [hist]
    dsimp only
    rw [hdc]
    simp
  · rw [generateResponse_body a o hg]
    rw [generateBody_contexts a o (lastUserMessage a.messages), hist]
    dsimp only
    rw [webStage_off, ytbStage_off, hdb]
    simp

def exC10d : IntentData :=
  { user_intent := some "small_talk", search_query := some "sq" }

def exC10dd : Doc := { id := some "D", content := some "alpha" }

def exC10args : Args :=
  { messages := [{ role := "user", content := "hey" }], planning := true,
    search_engine := .BING_SEARCH_CRAWLING, stream := false, elapsed_time := false,
    locale_msg := exMsg, include_web_search := true, include_ytb_search := true,
    include_mcp_server := true, include_ai_search := true, verbose := false }

def exC10oracle : Oracle :=
  { quietOracle with
    intent := .ok exC10d,
    docSearch := fun q => if q == "sq" then .ok "success" [exC10dd] else .empty }

theorem C10_small_talk_keeps_ai_search_witness :
    CallRec.docSearch "sq" ∈ (generateResponse exC10args exC10oracle).calls
    ∧ ("=== Document Context ===\nalpha")
        ∈ (generateResponse exC10args exC10oracle).contexts :=
  C10_small_talk_keeps_ai_search exC10args exC10oracle exC10d exC10dd "alpha"
    (by decide) rfl rfl rfl (by decide) (by decide)

/-! ### Claim C9: terminal error fragment -/

/-- A fragment of the literal error form `Error: <message>`. -/
def isErrorFrag (f : String) : Bool := "Error: ".data.isPrefixOf f.data

/-- Status-like fragments: the formatting fragment and SSE-framed status
markers; everything the pipeline yields before the answer or error. -/
def statusFrag (f : String) : Prop := f = " \n" ∨ ∃ s, f = dataFrag s

def allStatus (l : List String) : Prop := ∀ f ∈ l, statusFrag f

theorem string_data_append (a b : String) : (a ++ b).data = a.data ++ b.data := by
  cases a with
  | mk la =>
    cases b with
    | mk lb => rfl

theorem isErrorFrag_dataFrag (s : String) : isErrorFrag (dataFrag s) = false := by
  unfold isErrorFrag dataFrag
  rw [string_data_append]
  rfl

theorem isPrefixOf_append_self (l m : List Char) : l.isPrefixOf (l ++ m) = true := by
  induction l with
  | nil => simp [List.isPrefixOf]
  | cons a as ih => simp [List.isPrefixOf, ih]

theorem isErrorFrag_error (e : String) : isErrorFrag ("Error: " ++ e) = true := by
  unfold isErrorFrag
  rw [string_data_append]
  exact isPrefixOf_append_self _ _

theorem statusFrag_not_error {f : String} (h : statusFrag f) : isErrorFrag f = false := by
  rcases h with rfl | ⟨s, rfl⟩
  · rfl
  · exact isErrorFrag_dataFrag s

theorem allStatus_nil : allStatus [] := fun f hf => absurd hf (List.not_mem_nil f)

theorem allStatus_append {l1 l2 : List String} (h1 : allStatus l1) (h2 : allStatus l2) :
    allStatus (l1 ++ l2) := fun f hf =>
  (List.mem_append.mp hf).elim (h1 f) (h2 f)

theorem allStatus_singleton_data (s : String) : allStatus [dataFrag s] := fun _f hf =>
  Or.inr ⟨s, List.mem_singleton.mp hf⟩

theorem allStatus_ite (b : Bool) (l1 l2 : List String) (h1 : allStatus l1)
    (h2 : allStatus l2) : allStatus (if b then l1 else l2) := by
  intro f hf
  by_cases hb : b = true
  · rw [if_pos hb] at hf
    exact h1 f hf
  · rw [if_neg hb] at hf
    exact h2 f hf

theorem allStatus_ifData (b : Bool) (s : String) :
    allStatus (if b then [dataFrag s] else []) :=
  allStatus_ite b _ _ (allStatus_singleton_data s) allStatus_nil

theorem allStatus_fallbackFrags (b : Bool) : allStatus (fallbackFrags b) :=
  allStatus_ifData b _

theorem allStatus_webErrFrags (b : Bool) (e : String) : allStatus (webErrFrags b e) :=
  allStatus_ifData b _

theorem allStatus_ytbErrFrags (b : Bool) (e : String) : allStatus (ytbErrFrags b e) :=
  allStatus_ifData b _

theorem allStatus_intentPlanStage (a : Args) (o : Oracle) (m : String) :
    allStatus (intentPlanStage a o m).frags := by
  unfold intentPlanStage intentFallbackOut
  cases o.intent <;>
    (intro f hf
     dsimp only at hf
     try simp only [fallbackFrags] at hf
     repeat' split at hf
     repeat' rcases List.mem_append.mp hf with hf | hf
     all_goals
       first
         | exact absurd hf (List.not_mem_nil f)
         | exact Or.inr ⟨_, List.mem_singleton.mp hf⟩)

theorem allStatus_webCrawlLoop (stream : Bool) (msg : LocaleMsg)
    (f : String → CallOutcome) (n : Nat) :
    ∀ (i : Nat) (qs : List String), allStatus (webCrawlLoop stream msg f n i qs).frags := by
  intro i qs
  induction qs generalizing i with
  | nil => exact allStatus_nil
  | cons q rest ih =>
    simp only [webCrawlLoop]
    cases f q with
    | raiseExc e =>
      exact allStatus_append (allStatus_ifData _ _) (allStatus_webErrFrags _ _)
    | empty => exact allStatus_append (allStatus_ifData _ _) (ih (i + 1))
    | ok t => exact allStatus_append (allStatus_ifData _ _) (ih (i + 1))

theorem allStatus_webStage (a : Args) (o : Oracle) (sq : List String) (incWeb : Bool) :
    allStatus (webStage a o sq incWeb).frags := by
  unfold webStage
  intro f hf
  dsimp only at hf
  try simp only [webErrFrags] at hf
  repeat' split at hf
  repeat' rcases List.mem_append.mp hf with hf | hf
  all_goals
    first
      | exact absurd hf (List.not_mem_nil f)
      | exact Or.inr ⟨_, List.mem_singleton.mp hf⟩
      | exact allStatus_webCrawlLoop _ _ _ _ _ _ f hf

theorem allStatus_ytbLoop (stream mcp : Bool) (msg : LocaleMsg)
    (f : String → CallOutcome) (enriched : String) (n : Nat) :
    ∀ (i : Nat) (qs acc : List String),
      allStatus (ytbLoop stream mcp msg f enriched n i qs acc).frags := by
  intro i qs
  induction qs generalizing i with
  | nil => intro acc; exact allStatus_nil
  | cons q rest ih =>
    intro acc
    simp only [ytbLoop]
    cases f enriched with
    | raiseExc e => exact allStatus_append (allStatus_ifData _ _) (allStatus_ytbErrFrags _ _)
    | empty => exact allStatus_append (allStatus_ifData _ _) (ih (i + 1) acc)
    | ok t => exact allStatus_append (allStatus_ifData _ _) (ih (i + 1) (acc ++ [t]))

theorem allStatus_ytbStage (a : Args) (o : Oracle) (sq : List String) (enriched : String)
    (incYtb : Bool) : allStatus (ytbStage a o sq enriched incYtb).frags := by
  unfold ytbStage
  intro f hf
  dsimp only at hf
  try simp only [ytbErrFrags] at hf
  repeat' split at hf
  repeat' rcases List.mem_append.mp hf with hf | hf
  all_goals
    first
      | exact absurd hf (List.not_mem_nil f)
      | exact Or.inr ⟨_, List.mem_singleton.mp hf⟩
      | exact allStatus_ytbLoop _ _ _ _ _ _ _ _ _ f hf

theorem allStatus_docLoopFull (stream : Bool) (msg : LocaleMsg) (n : Nat) :
    ∀ (i : Nat) (qs : List (String × DocSearchOutcome)) (st : DocState),
      allStatus (docLoopFull stream msg n i qs st).frags := by
  intro i qs
  induction qs generalizing i with
  | nil => intro st; exact allStatus_nil
  | cons p rest ih =>
    intro st
    obtain ⟨q, out⟩ := p
    by_cases hr : ∃ e, out = DocSearchOutcome.raiseExc e
    · obtain ⟨e, rfl⟩ := hr
      rw [docLoopFull_raiseEq]
      exact allStatus_append (allStatus_ifData _ _) (allStatus_ifData _ _)
    · push_neg at hr
      rw [docLoopFull_cons stream msg n i q out rest st hr]
      split
      · exact allStatus_ifData _ _
      · exact allStatus_append (allStatus_ifData _ _) (ih (i + 1) _)

theorem allStatus_docStage (a : Args) (o : Oracle) (sq : List String) :
    allStatus (docStage a o sq).frags := by
  unfold docStage
  intro f hf
  dsimp only at hf
  repeat' split at hf
  repeat' rcases List.mem_append.mp hf with hf | hf
  all_goals
    first
      | exact absurd hf (List.not_mem_nil f)
      | exact Or.inr ⟨_, List.mem_singleton.mp hf⟩
      | exact allStatus_docLoopFull _ _ _ _ _ _ f hf

theorem allStatus_spaceNl : allStatus [" \n"] := fun _f hf =>
  Or.inl (List.mem_singleton.mp hf)

/-- The general error-tail shape: when every earlier fragment is a status
fragment, the appended `Error:` fragment is the last one and the only one of
error form. -/
theorem errorTail (pre : List String) (emsg : String) (h : allStatus pre) :
    (pre ++ ["Error: " ++ emsg]).getLast? = some ("Error: " ++ emsg)
    ∧ (pre ++ ["Error: " ++ emsg]).filter (fun f => isErrorFrag f)
        = ["Error: " ++ emsg] := by
  constructor
  · exact List.getLast?_concat _
  · rw [List.filter_append]
    rw [List.filter_eq_nil_iff.mpr (by
      intro f hf
      simp [statusFrag_not_error (h f hf)])]
    rw [List.nil_append]
    simp [List.filter, isErrorFrag_error]

/-- Claim C9: when the final completion call fails (or, on the unbound-local
path, the answer-assembly read fails), the run yields its status fragments,
then exactly one terminal fragment of the form `Error: <message>`, and ends;
no other fragment of that form occurs and no exception escapes (the embedding
is a total function). -/
theorem C9_error_terminal :
    ∀ (a : Args) (o : Oracle) (e : String),
      lastUserMessage a.messages ≠ "No question provided" →
      o.generate = .error e →
      ∃ emsg,
        (generateResponse a o).frags.getLast? = some ("Error: " ++ emsg)
        ∧ (generateResponse a o).frags.filter (fun f => isErrorFrag f)
            = ["Error: " ++ emsg] := by
  intro a o e hg hgen
  rw [generateResponse_body a o hg]
  have hpre : allStatus
      ((if a.stream then [dataFrag ("### " ++ a.locale_msg.analyzing ++ "\n\n")] else [])
        ++ (intentPlanStage a o (lastUserMessage a.messages)).frags
        ++ (webStage a o (intentPlanStage a o (lastUserMessage a.messages)).search_queries
            (intentPlanStage a o (lastUserMessage a.messages)).include_web_search).frags
        ++ (ytbStage a o (intentPlanStage a o (lastUserMessage a.messages)).search_queries
            (intentPlanStage a o (lastUserMessage a.messages)).enriched_query
            (intentPlanStage a o (lastUserMessage a.messages)).include_ytb_search).frags
        ++ (docStage a o (intentPlanStage a o (lastUserMessage a.messages)).search_queries).frags
        ++ (if a.stream then [dataFrag ("### " ++ a.locale_msg.answering ++ "\n\n")] else [])
        ++ [" \n"]) := by
    refine allStatus_append (allStatus_append (allStatus_append (allStatus_append
      (allStatus_append (allStatus_append (allStatus_ifData _ _)
            (allStatus_intentPlanStage _ _ _))
          (allStatus_webStage _ _ _ _))
        (allStatus_ytbStage _ _ _ _ _))
      (allStatus_docStage _ _ _))
      (allStatus_ifData _ _))
      allStatus_spaceNl
  unfold generateBody
  dsimp only
  cases hui : (intentPlanStage a o (lastUserMessage a.messages)).user_intent with
  | none =>
    exact ⟨unboundMsg "user_intent", errorTail _ _ hpre⟩
  | some ui =>
    rw [hgen]
    exact ⟨e, errorTail _ _ hpre⟩

def exC9args : Args :=
  { messages := [{ role := "user", content := "ask" }], planning := false,
    search_engine := .BING_SEARCH_CRAWLING, stream := false, elapsed_time := true,
    locale_msg := exMsg, include_web_search := false, include_ytb_search := false,
    include_mcp_server := false, include_ai_search := false, verbose := false }

def exC9oracle : Oracle :=
  { quietOracle with
    intent := .ok { user_intent := some "general_query" },
    generate := .error "completion failed" }

theorem C9_error_terminal_witness :
    ∃ emsg,
      (generateResponse exC9args exC9oracle).frags.getLast? = some ("Error: " ++ emsg)
      ∧ (generateResponse exC9args exC9oracle).frags.filter (fun f => isErrorFrag f)
          = ["Error: " ++ emsg] :=
  C9_error_terminal exC9args exC9oracle "completion failed" (by decide) rfl

end PlanSearch
